import Mathlib

/-!
Verification of the version-resolution core of an Unreal Engine LSP server
(`UnrealEngineLSP.cpp` / `UnrealEngineLSP.hpp`).

The development shallowly embeds the pure computational content of the
source: machine `int` fields become `Int`, `std::string` becomes `String`
(or `List Char` where character-level scanning is embedded),
`std::vector` becomes `List`, `std::unordered_map` becomes an association
list with at most one entry per key, and code that can throw becomes
`Except`.  Filesystem walks, JSON file parsing and thread scheduling are
not embedded; where a function's behaviour depends on them, the data they
would have produced (e.g. the list of discovered engine versions, or the
`EngineAssociation` string read from the project descriptor) is passed as
an explicit parameter, and the surrounding pure logic is translated
verbatim.
-/

namespace UnrealLSP

/-- C++ `struct EngineVersion` from `UnrealEngineLSP.hpp`: a release triple
plus the display string and the installation path.  The C++ fields
`major`, `minor`, `patch` are `int`, embedded as `Int`. -/
structure EngineVersion where
  major : Int
  minor : Int
  patch : Int
  fullVersion : String
  installPath : String
deriving DecidableEq, Repr

/-- C++ `EngineVersion::isUE4()`: `major == 4`. -/
def EngineVersion.isUE4 (v : EngineVersion) : Bool := v.major == 4

/-- C++ `EngineVersion::isUE5()`: `major >= 5`. -/
def EngineVersion.isUE5 (v : EngineVersion) : Bool := decide (5 ≤ v.major)

/-- C++ `std::to_string(int)` agrees with `Int`'s decimal printing. -/
def cppIntToString (n : Int) : String := toString n

/-- C++ `EngineVersion::toString()`: `major.minor.patch`. -/
def EngineVersion.verString (v : EngineVersion) : String :=
  cppIntToString v.major ++ "." ++ cppIntToString v.minor ++ "." ++ cppIntToString v.patch

/-- C++ `EngineVersion::operator<`: compare `major`, then `minor`, then
`patch`, exactly as the source branches on inequality of each field. -/
def evLt (a b : EngineVersion) : Bool :=
  if a.major ≠ b.major then decide (a.major < b.major)
  else if a.minor ≠ b.minor then decide (a.minor < b.minor)
  else decide (a.patch < b.patch)

/-- C++ `EngineVersion::operator>=`: `!(*this < other)`. -/
def evGe (a b : EngineVersion) : Bool := !(evLt a b)

/-- C++ `EngineVersion::operator==`: equality on `(major, minor, patch)`,
ignoring `fullVersion` and `installPath`. -/
def evEq (a b : EngineVersion) : Bool :=
  a.major == b.major && a.minor == b.minor && a.patch == b.patch

/-- The strict lexicographic order on the `(major, minor, patch)` key,
as a proposition; `evLt` decides it. -/
def keyLt (a b : EngineVersion) : Prop :=
  a.major < b.major ∨
    (a.major = b.major ∧
      (a.minor < b.minor ∨ (a.minor = b.minor ∧ a.patch < b.patch)))

theorem evLt_true_iff (a b : EngineVersion) : evLt a b = true ↔ keyLt a b := by
  unfold evLt keyLt
  split_ifs <;> simp_all

theorem evLt_false_iff (a b : EngineVersion) : evLt a b = false ↔ ¬ keyLt a b := by
  rw [← evLt_true_iff]
  cases evLt a b <;> simp

theorem evEq_true_iff (a b : EngineVersion) :
    evEq a b = true ↔ (a.major = b.major ∧ a.minor = b.minor ∧ a.patch = b.patch) := by
  unfold evEq
  simp [and_assoc]

theorem evEq_false_iff (a b : EngineVersion) :
    evEq a b = false ↔ ¬ (a.major = b.major ∧ a.minor = b.minor ∧ a.patch = b.patch) := by
  rw [← evEq_true_iff]
  cases evEq a b <;> simp

/-- The sortedness relation guaranteed by `std::sort` with the comparator
`[](a, b) { return b < a; }` used in `findAllEngineVersions`: between an
earlier element `a` and a later element `b` of the output the comparator
must not hold of `(b, a)`, i.e. `¬ (a < b)`, i.e. `a >= b`. -/
def sortedDesc (a b : EngineVersion) : Prop := evLt a b = false

instance : DecidableRel sortedDesc := fun a b =>
  inferInstanceAs (Decidable (evLt a b = false))

instance : IsTotal EngineVersion sortedDesc where
  total a b := by
    unfold sortedDesc
    rw [evLt_false_iff, evLt_false_iff]
    unfold keyLt
    omega

instance : IsTrans EngineVersion sortedDesc where
  trans a b c := by
    unfold sortedDesc
    rw [evLt_false_iff, evLt_false_iff, evLt_false_iff]
    unfold keyLt
    omega

/-- Tail of `std::unique` over the comparator `operator==`: drop each
element equivalent to the last element kept (`prev`). -/
def uniqueAdjAux (prev : EngineVersion) : List EngineVersion → List EngineVersion
  | [] => []
  | b :: rest =>
    if evEq prev b then uniqueAdjAux prev rest
    else b :: uniqueAdjAux b rest

/-- C++ `versions.erase(std::unique(...), versions.end())` with the predicate
`a == b`: keep the first element of each run of `(major, minor, patch)`-
equal elements, where each survivor is compared against the last kept
element (the semantics of `std::unique`). -/
def uniqueAdj : List EngineVersion → List EngineVersion
  | [] => []
  | a :: rest => a :: uniqueAdjAux a rest

/-- The post-processing tail of `UnrealEngineDetector::findAllEngineVersions`
applied to the list of versions gathered by the filesystem walk: sort
descending with the comparator `b < a`, then remove `(major,minor,patch)`
duplicates with `std::unique`/`erase`.  `std::sort`'s contract is only
that the output is some permutation sorted under the comparator;
`List.insertionSort` realises that contract, and the properties proved
below depend only on sortedness, so they hold of every conforming
implementation. -/
def findAllEngineVersionsPost (discovered : List EngineVersion) : List EngineVersion :=
  uniqueAdj (List.insertionSort sortedDesc discovered)

/-- Strict descending order together with key-inequality; what holds
between consecutive survivors of the dedup pass. -/
def strictDesc (a b : EngineVersion) : Prop := sortedDesc a b ∧ evEq a b = false

instance : IsTrans EngineVersion strictDesc where
  trans a b c hab hbc := by
    obtain ⟨h1, h2⟩ := hab
    obtain ⟨h3, h4⟩ := hbc
    unfold sortedDesc at *
    rw [evLt_false_iff] at h1 h3
    rw [evEq_false_iff] at h2 h4
    refine ⟨?_, ?_⟩
    · unfold sortedDesc
      rw [evLt_false_iff]
      unfold keyLt at *
      omega
    · rw [evEq_false_iff]
      unfold keyLt at *
      omega

theorem uniqueAdjAux_chain (l : List EngineVersion) :
    ∀ prev, List.Sorted sortedDesc l → (∀ x ∈ l, sortedDesc prev x) →
      List.Chain strictDesc prev (uniqueAdjAux prev l) := by
  induction l with
  | nil => intro prev _ _; exact List.Chain.nil
  | cons b rest ih =>
    intro prev hs hp
    unfold uniqueAdjAux
    by_cases he : evEq prev b
    · rw [if_pos he]
      exact ih prev hs.of_cons (fun x hx => hp x (List.mem_cons_of_mem _ hx))
    · rw [if_neg he]
      refine List.Chain.cons ⟨hp b (List.mem_cons_self b rest), ?_⟩ ?_
      · cases h : evEq prev b
        · rfl
        · exact absurd h he
      · exact ih b hs.of_cons (fun x hx => List.rel_of_sorted_cons hs x hx)

theorem uniqueAdj_chain' (l : List EngineVersion) (hs : List.Sorted sortedDesc l) :
    List.Chain' strictDesc (uniqueAdj l) := by
  cases l with
  | nil => exact List.chain'_nil
  | cons a rest =>
    exact uniqueAdjAux_chain rest a hs.of_cons
      (fun x hx => List.rel_of_sorted_cons hs x hx)

/-! ### VersionSpecificAPI

The C++ class stores `std::unordered_map<std::string, json>` where each
bucket json holds `"classes"` (class name → `{"methods": [...]}`),
`"macros"` (macro name → `{"template": "..."}`), and `"includePaths"`.
The heterogeneous json is embedded as a typed record; the per-key maps
become association lists in the source's literal order. -/

/-- One version bucket of `apiDatabase_`. -/
structure APIBucket where
  classes : List (String × List String)
  macros : List (String × String)
  includePaths : List String
deriving DecidableEq, Repr

/-- Association-list lookup, the counterpart of `unordered_map::find`
(every map constructed below has at most one entry per key). -/
def alistLookup {β : Type} (l : List (String × β)) (k : String) : Option β :=
  (l.find? (fun p => p.1 == k)).map (fun p => p.2)

/-- C++ `apiDatabase_["X"]["classes"][cls]["methods"].push_back(m)`: append
`m` to the method list of `cls` inside a bucket. -/
def pushClassMethod (b : APIBucket) (cls m : String) : APIBucket :=
  { b with classes := b.classes.map (fun p => if p.1 == cls then (p.1, p.2 ++ [m]) else p) }

/-- C++ `apiDatabase_["X"]["includePaths"].push_back(p)`. -/
def pushIncludePath (b : APIBucket) (p : String) : APIBucket :=
  { b with includePaths := b.includePaths ++ [p] }

/-- The `"4.27"` bucket built in `initializeAPIDatabase`. -/
def bucket427 : APIBucket :=
  { classes :=
      [ ("AActor", ["BeginPlay", "EndPlay", "Tick", "GetActorLocation", "SetActorLocation",
                    "GetWorld", "Destroy", "GetComponents", "GetRootComponent"])
      , ("APawn", ["PossessedBy", "UnPossessed", "GetController", "SetupPlayerInputComponent",
                   "GetMovementComponent", "AddMovementInput", "AddControllerYawInput"])
      , ("ACharacter", ["Jump", "StopJumping", "CanJump", "GetCharacterMovement", "LaunchCharacter"])
      , ("UObject", ["GetName", "GetClass", "IsA", "GetOuter", "GetWorld", "ConditionalBeginDestroy"])
      , ("UActorComponent", ["BeginPlay", "EndPlay", "TickComponent", "Activate", "Deactivate", "IsActive"]) ]
  , macros :=
      [ ("UCLASS", "UCLASS(BlueprintType, Blueprintable)\nclass GAME_API AClassName : public AActor\n\x7b\n\tGENERATED_UCLASS_BODY()\n\npublic:\n\tvirtual void BeginPlay() override;\n\tvirtual void Tick(float DeltaTime) override;\n\x7d;")
      , ("USTRUCT", "USTRUCT(BlueprintType)\nstruct FStructName\n\x7b\n\tGENERATED_USTRUCT_BODY()\n\n\tUPROPERTY(EditAnywhere, BlueprintReadWrite)\n\tint32 Value;\n\x7d;")
      , ("UFUNCTION", "UFUNCTION(BlueprintCallable, Category = \"Gameplay\")\nvoid FunctionName();")
      , ("UPROPERTY", "UPROPERTY(EditAnywhere, BlueprintReadWrite, Category = \"Properties\")\nfloat PropertyName;") ]
  , includePaths :=
      [ "Engine/Source/Runtime/Core/Public"
      , "Engine/Source/Runtime/CoreUObject/Public"
      , "Engine/Source/Runtime/Engine/Public" ] }

/-- The `"5.0"` bucket built in `initializeAPIDatabase`. -/
def bucket50 : APIBucket :=
  { classes :=
      [ ("AActor", ["BeginPlay", "EndPlay", "Tick", "GetActorLocation", "SetActorLocation",
                    "GetWorld", "GetActorTransform", "SetActorTransform", "Destroy",
                    "GetComponents", "GetRootComponent", "FindComponentByClass"])
      , ("APawn", ["PossessedBy", "UnPossessed", "GetController", "SetupPlayerInputComponent",
                   "AddMovementInput", "GetMovementComponent", "AddControllerYawInput",
                   "AddControllerPitchInput"])
      , ("ACharacter", ["Jump", "StopJumping", "CanJump", "GetCharacterMovement", "LaunchCharacter",
                        "Crouch", "UnCrouch", "CanCrouch"])
      , ("UObject", ["GetName", "GetClass", "IsA", "GetOuter", "GetWorld", "GetTypedOuter",
                     "ConditionalBeginDestroy", "MarkAsGarbage"])
      , ("UActorComponent", ["BeginPlay", "EndPlay", "TickComponent", "Activate", "Deactivate",
                             "IsActive", "RegisterComponent", "UnregisterComponent"]) ]
  , macros :=
      [ ("UCLASS", "UCLASS(BlueprintType, Blueprintable)\nclass GAME_API AClassName : public AActor\n\x7b\n\tGENERATED_BODY()\n\npublic:\n\tAClassName();\n\nprotected:\n\tvirtual void BeginPlay() override;\n\npublic:\n\tvirtual void Tick(float DeltaTime) override;\n\x7d;")
      , ("USTRUCT", "USTRUCT(BlueprintType)\nstruct FStructName\n\x7b\n\tGENERATED_BODY()\n\n\tUPROPERTY(EditAnywhere, BlueprintReadWrite)\n\tint32 Value = 0;\n\x7d;")
      , ("UFUNCTION", "UFUNCTION(BlueprintCallable, Category = \"Gameplay\")\nvoid FunctionName();")
      , ("UPROPERTY", "UPROPERTY(EditAnywhere, BlueprintReadWrite, Category = \"Properties\")\nfloat PropertyName = 0.0f;")
      , ("UENUM", "UENUM(BlueprintType)\nenum class EEnumName : uint8\n\x7b\n\tNone UMETA(DisplayName = \"None\"),\n\tFirst UMETA(DisplayName = \"First\"),\n\tSecond UMETA(DisplayName = \"Second\")\n\x7d;") ]
  , includePaths :=
      [ "Engine/Source/Runtime/Core/Public"
      , "Engine/Source/Runtime/CoreUObject/Public"
      , "Engine/Source/Runtime/Engine/Public"
      , "Engine/Source/Runtime/Engine/Classes" ] }

/-- Bucket `"5.1"`: copy of `"5.0"` plus two `AActor` methods appended. -/
def bucket51 : APIBucket :=
  pushClassMethod (pushClassMethod bucket50 "AActor" "GetActorNameOrLabel") "AActor" "SetActorLabel"

/-- Bucket `"5.2"`: copy of `"5.1"` plus one include path appended. -/
def bucket52 : APIBucket := pushIncludePath bucket51 "Engine/Source/Runtime/UMG/Public"

/-- Bucket `"5.3"`: copy of `"5.2"` plus one `AActor` method appended. -/
def bucket53 : APIBucket := pushClassMethod bucket52 "AActor" "GetActorGuid"

/-- Bucket `"5.4"`: copy of `"5.3"`. -/
def bucket54 : APIBucket := bucket53

/-- Bucket `"5.5"`: copy of `"5.4"`. -/
def bucket55 : APIBucket := bucket54

/-- C++ `apiDatabase_` keyed by bucket string. -/
def apiDatabase (key : String) : Option APIBucket :=
  if key == "4.27" then some bucket427
  else if key == "5.0" then some bucket50
  else if key == "5.1" then some bucket51
  else if key == "5.2" then some bucket52
  else if key == "5.3" then some bucket53
  else if key == "5.4" then some bucket54
  else if key == "5.5" then some bucket55
  else none

/-- C++ `VersionSpecificAPI::getVersionKey`: UE4 maps to the fixed `"4.27"`
bucket; major 5 descends an explicit minor-version ladder; anything else
returns the literal `"5.3"` default. -/
def getVersionKey (v : EngineVersion) : String :=
  if v.isUE4 then "4.27"
  else if v.major == 5 then
    if decide (5 ≤ v.minor) then "5.5"
    else if decide (4 ≤ v.minor) then "5.4"
    else if decide (3 ≤ v.minor) then "5.3"
    else if decide (2 ≤ v.minor) then "5.2"
    else if decide (1 ≤ v.minor) then "5.1"
    else "5.0"
  else "5.3"

/-- C++ `VersionSpecificAPI::getDefaultClassMethods`. -/
def getDefaultClassMethods (className : String) : List String :=
  if className == "AActor" then
    ["BeginPlay", "EndPlay", "Tick", "GetActorLocation", "SetActorLocation"]
  else if className == "UObject" then
    ["GetName", "GetClass", "IsA"]
  else if className == "APawn" then
    ["PossessedBy", "UnPossessed", "GetController"]
  else if className == "ACharacter" then
    ["Jump", "StopJumping", "GetCharacterMovement"]
  else []

/-- C++ `VersionSpecificAPI::getDefaultMacroTemplate`. -/
def getDefaultMacroTemplate (macroName : String) (v : EngineVersion) : String :=
  if macroName == "UCLASS" then
    if v.isUE4 then
      "UCLASS(BlueprintType, Blueprintable)\nclass GAME_API AClassName : public AActor\n\x7b\n\tGENERATED_UCLASS_BODY()\n\n\x7d;"
    else
      "UCLASS(BlueprintType, Blueprintable)\nclass GAME_API AClassName : public AActor\n\x7b\n\tGENERATED_BODY()\n\npublic:\n\tAClassName();\n\n\x7d;"
  else if macroName == "USTRUCT" then
    if v.isUE4 then
      "USTRUCT(BlueprintType)\nstruct FStructName\n\x7b\n\tGENERATED_USTRUCT_BODY()\n\x7d;"
    else
      "USTRUCT(BlueprintType)\nstruct FStructName\n\x7b\n\tGENERATED_BODY()\n\x7d;"
  else if macroName == "UFUNCTION" then
    "UFUNCTION(BlueprintCallable, Category = \"Gameplay\")\nvoid FunctionName();"
  else if macroName == "UPROPERTY" then
    "UPROPERTY(EditAnywhere, BlueprintReadWrite, Category = \"Properties\")\nfloat PropertyName;"
  else ""

/-- C++ `VersionSpecificAPI::getClassMethods`: resolve the bucket, return the
class's recorded methods if the class is present, otherwise the built-in
default list.  (Every bucket json in the source carries a `"classes"`
key, so the source's extra `find("classes")` check never fails.) -/
def getClassMethods (className : String) (v : EngineVersion) : List String :=
  match apiDatabase (getVersionKey v) with
  | some b =>
    match alistLookup b.classes className with
    | some ms => ms
    | none => getDefaultClassMethods className
  | none => getDefaultClassMethods className

/-- C++ `VersionSpecificAPI::getMacroTemplate`: resolve the bucket, return
the macro's recorded template if present, otherwise the built-in default
template. -/
def getMacroTemplate (macroName : String) (v : EngineVersion) : String :=
  match apiDatabase (getVersionKey v) with
  | some b =>
    match alistLookup b.macros macroName with
    | some t => t
    | none => getDefaultMacroTemplate macroName v
  | none => getDefaultMacroTemplate macroName v

/-! ### Character classes and the `(\d+)\.(\d+)(?:\.(\d+))?` search

`std::regex_search` with the ECMAScript pattern
`(\d+)\.(\d+)(?:\.(\d+))?` tries start positions left to right; at a
given position the greedy `\d+` takes the maximal digit run and the only
viable backtracking outcome is: maximal digit run, literal `.`, maximal
digit run, then optionally literal `.` followed by a maximal digit run
(the optional group matches exactly when a dot followed by a digit comes
next).  The embedding below realises exactly that deterministic
behaviour on `List Char`. -/

def isDigitChar (c : Char) : Bool := decide ('0' ≤ c) && decide (c ≤ '9')

/-- The `\s` class of `std::regex` (C locale): space, tab, newline, vertical tab,
form feed, carriage return. -/
def isWsChar (c : Char) : Bool :=
  c == ' ' || c == '\t' || c == '\n' || c == '\x0b' || c == '\x0c' || c == '\r'

/-- The `\w` class of `std::regex` (C locale): letters, digits, underscore. -/
def isWordCh (c : Char) : Bool :=
  (decide ('a' ≤ c) && decide (c ≤ 'z')) || (decide ('A' ≤ c) && decide (c ≤ 'Z')) ||
    isDigitChar c || c == '_'

/-- C++ `std::isupper` on the characters `\w` can produce. -/
def isUpperCh (c : Char) : Bool := decide ('A' ≤ c) && decide (c ≤ 'Z')

/-- Numeric value of a digit run; `std::stoi` on a captured `\d+` group
(overflow, which would throw `std::out_of_range`, is not modelled). -/
def digitsToNat (ds : List Char) : Nat :=
  ds.foldl (fun acc c => acc * 10 + (c.toNat - '0'.toNat)) 0

/-- Try the version pattern at one start position: returns
`(major, minor, patch)` where `patch` is `0` when the optional third
group does not participate (`match[3].matched` false ⇒ the callers use
`0`). -/
def matchVersionAt (cs : List Char) : Option (Nat × Nat × Nat) :=
  let (d1, r1) := cs.span isDigitChar
  if d1.isEmpty then none
  else
    match r1 with
    | '.' :: r2 =>
      let (d2, r3) := r2.span isDigitChar
      if d2.isEmpty then none
      else
        let patch :=
          match r3 with
          | '.' :: r4 =>
            let (d3, _) := r4.span isDigitChar
            if d3.isEmpty then 0 else digitsToNat d3
          | _ => 0
        some (digitsToNat d1, digitsToNat d2, patch)
    | _ => none

/-- Leftmost search: try each start position from the left.  The fuel is
the input length; every step moves one character right, so it never runs
out. -/
def searchVersionAux : Nat → List Char → Option (Nat × Nat × Nat)
  | 0, _ => none
  | _, [] => none
  | fuel + 1, c :: rest =>
    match matchVersionAt (c :: rest) with
    | some v => some v
    | none => searchVersionAux fuel rest

/-- C++ `std::regex_search(s, match, versionPattern)` for the association
pattern, yielding the three numeric groups. -/
def searchVersion (s : String) : Option (Nat × Nat × Nat) :=
  searchVersionAux s.data.length s.data

/-- The literal `{5, 3, 0, "5.3.0", ""}` fallback. -/
def defaultEngineVersion : EngineVersion :=
  { major := 5, minor := 3, patch := 0, fullVersion := "5.3.0", installPath := "" }

/-- C++ `UnrealEngineDetector::parseEngineAssociation`.  The call to
`findAllEngineVersions()` inside it is abstracted as the parameter
`discovered` (the list that call would return).  On a pattern match the
version is built from the groups, `fullVersion` is set via `toString()`,
and `installPath` is copied from the first discovered installation whose
`(major, minor)` agree; with no pattern the fixed default is returned. -/
def parseEngineAssociation (discovered : List EngineVersion) (engineAssoc : String) :
    EngineVersion :=
  match searchVersion engineAssoc with
  | some (ma, mi, pa) =>
    let base : EngineVersion :=
      { major := (ma : Int), minor := (mi : Int), patch := (pa : Int)
      , fullVersion := "", installPath := "" }
    let base := { base with fullVersion := base.verString }
    let path :=
      match discovered.find? (fun v => v.major == base.major && v.minor == base.minor) with
      | some v => v.installPath
      | none => ""
    { base with installPath := path }
  | none => defaultEngineVersion

/-- C++ `UnrealEngineDetector::detectProjectEngineVersion`.  The filesystem
walk over `projectPath` and the JSON parse of the `.uproject` file are
abstracted as `assoc?`: `some s` when a descriptor parses and carries an
`EngineAssociation` field with value `s`, `none` otherwise (no
descriptor, unreadable JSON, or missing field).  `findAllEngineVersions`
is abstracted as `discovered` at both of its call sites. -/
def detectProjectEngineVersion (discovered : List EngineVersion)
    (assoc? : Option String) : EngineVersion :=
  match assoc? with
  | some s => parseEngineAssociation discovered s
  | none =>
    match discovered with
    | [] => defaultEngineVersion
    | v :: _ => v

/-! ### DynamicHeaderScanner

`scanHeaderFile` reads a header's whole text, repeatedly matches
`class\s+\w+_API\s+(\w+)\s*:\s*public` to collect exported class names
(each search resuming after the previous match), and for each class name
assigns `scannedClasses_[className] = extractClassMethods(content, ...)`
when the extraction is non-empty.  `extractClassMethods` repeatedly
matches `\s+(\w+)\s*\([^)]*\)\s*(?:const)?\s*(?:override)?\s*;` over the
same whole text and filters the captured identifiers.

Regex notes baked into the deterministic scanners below (they agree with
ECMAScript backtracking for these patterns):
* `\w+_API` followed by `\s+` succeeds iff the maximal `\w` run at that
  point ends in `_API` and is longer than 4 (the `_API` suffix must be
  at the end of the run, because what follows it inside the run is a
  word character where whitespace is required);
* `\s+(\w+)` takes the maximal whitespace run then the maximal word run
  (shorter splits put the wrong character class next);
* `[^)]*\)` consumes everything up to the first `)` and fails when no
  `)` remains;
* each optional literal `(?:const)?`, `(?:override)?` participates
  exactly when its literal is next (skipping a present literal can never
  rescue the required `;`, since `;` would have to equal `c`/`o`). -/

/-- Match a literal character sequence, returning the rest. -/
def litP : List Char → List Char → Option (List Char)
  | [], cs => some cs
  | _ :: _, [] => none
  | p :: ps, c :: cs => if c == p then litP ps cs else none

/-- Pattern `class\s+\w+_API\s+(\w+)\s*:\s*public` at one start position:
returns the captured class name and the remainder after the match. -/
def classMatchAt (cs : List Char) : Option (List Char × List Char) :=
  match litP "class".data cs with
  | none => none
  | some r1 =>
    let (ws1, r2) := r1.span isWsChar
    if ws1.isEmpty then none
    else
      let (api, r3) := r2.span isWordCh
      if decide (4 < api.length) && decide ("_API".data.isSuffixOf api) then
        let (ws2, r4) := r3.span isWsChar
        if ws2.isEmpty then none
        else
          let (name, r5) := r4.span isWordCh
          if name.isEmpty then none
          else
            let (_, r6) := r5.span isWsChar
            match litP ":".data r6 with
            | none => none
            | some r7 =>
              let (_, r8) := r7.span isWsChar
              match litP "public".data r8 with
              | none => none
              | some r9 => some (name, r9)
      else none

/-- The repeated `regex_search` loop over `classPattern`: collect every
match left to right, resuming each search at the end of the previous
match.  Fuel is the input length; a successful match consumes at least
the five characters of `class`, a failed position advances by one. -/
def extractClassNamesAux : Nat → List Char → List String
  | 0, _ => []
  | _, [] => []
  | fuel + 1, c :: rest =>
    match classMatchAt (c :: rest) with
    | some (name, suffix) => String.mk name :: extractClassNamesAux fuel suffix
    | none => extractClassNamesAux fuel rest

def extractClassNames (content : String) : List String :=
  extractClassNamesAux content.data.length content.data

/-- Pattern `\s+(\w+)\s*\([^)]*\)\s*(?:const)?\s*(?:override)?\s*;` at one start
position: returns the captured identifier and the remainder after `;`. -/
def methodMatchAt (cs : List Char) : Option (List Char × List Char) :=
  let (ws1, r1) := cs.span isWsChar
  if ws1.isEmpty then none
  else
    let (name, r2) := r1.span isWordCh
    if name.isEmpty then none
    else
      let (_, r3) := r2.span isWsChar
      match litP "(".data r3 with
      | none => none
      | some r4 =>
        let (_, r5) := r4.span (fun c => !(c == ')'))
        match litP ")".data r5 with
        | none => none
        | some r6 =>
          let (_, r7) := r6.span isWsChar
          let r8 := (litP "const".data r7).getD r7
          let (_, r9) := r8.span isWsChar
          let r10 := (litP "override".data r9).getD r9
          let (_, r11) := r10.span isWsChar
          match litP ";".data r11 with
          | none => none
          | some r12 => some (name, r12)

/-- The repeated `regex_search` loop over `methodPattern`. -/
def methodNamesAux : Nat → List Char → List (List Char)
  | 0, _ => []
  | _, [] => []
  | fuel + 1, c :: rest =>
    match methodMatchAt (c :: rest) with
    | some (name, suffix) => name :: methodNamesAux fuel suffix
    | none => methodNamesAux fuel rest

/-- The filter applied to each captured identifier, in source order:
not the enclosing class name (rejects constructors), no leading `~`
(destructors; vacuous after `\w+` but kept), not `operator`, and an
uppercase first letter. -/
def keepMethodName (className : String) (name : List Char) : Bool :=
  decide (String.mk name ≠ className) &&
  (match name with
   | c :: _ => !(c == '~')
   | [] => true) &&
  decide (String.mk name ≠ "operator") &&
  (match name with
   | c :: _ => isUpperCh c
   | [] => false)

/-- C++ `DynamicHeaderScanner::extractClassMethods`: scan the whole file
content for method-declaration matches and keep the survivors. -/
def extractClassMethods (content : String) (className : String) : List String :=
  ((methodNamesAux content.data.length content.data).filter
    (keepMethodName className)).map String.mk

/-- C++ `scannedClasses_`: `unordered_map<string, vector<string>>` as an
association list with unique keys (iteration order of the hash map is
not observable through `getClassMethods`). -/
abbrev ScanState : Type := List (String × List String)

/-- C++ `scannedClasses_[className] = methods`: `operator[]` assignment —
replace the value when the key exists, otherwise insert. -/
def scanMapAssign (st : ScanState) (cls : String) (ms : List String) : ScanState :=
  if st.any (fun p => p.1 == cls) then
    st.map (fun p => if p.1 == cls then (p.1, ms) else p)
  else st ++ [(cls, ms)]

/-- C++ `DynamicHeaderScanner::scanHeaderFile` on one file's content: for
each class-pattern match in order, extract methods from the whole
content and, when non-empty, assign them to the class's map entry. -/
def scanHeaderFile (st : ScanState) (content : String) : ScanState :=
  (extractClassNames content).foldl
    (fun s cls =>
      let ms := extractClassMethods content cls
      if ms.isEmpty then s else scanMapAssign s cls ms)
    st

/-- C++ `DynamicHeaderScanner::getClassMethods`: the current snapshot for a
class, or empty. -/
def scannerGetClassMethods (st : ScanState) (className : String) : List String :=
  match alistLookup st className with
  | some ms => ms
  | none => []

/-! ### VersionCompatibleAutoComplete

Completion items are nlohmann json objects with exactly the keys
`label`, `insertText`, `detail`, `kind`, `sortText`; the analyzer copies
those five fields into `CompletionItem` unchanged, so a single record
represents both. -/

/-- C++ `CompletionItem` / the completion json objects. -/
structure CompletionItem where
  label : String
  insertText : String
  detail : String
  kind : Int
  sortText : String
deriving DecidableEq, Repr

/-- C++ `context.find("::") != std::string::npos`. -/
def containsScopeMarker : List Char → Bool
  | ':' :: ':' :: _ => true
  | _ :: rest => containsScopeMarker rest
  | [] => false

/-- C++ `context.rfind("::")`: index of the last occurrence of `::`. -/
def lastScopeMarkerAux : List Char → Nat → Option Nat
  | [], _ => none
  | c :: rest, i =>
    match lastScopeMarkerAux rest (i + 1) with
    | some j => some j
    | none =>
      if c == ':' && rest.head? == some ':' then some i else none

def lastScopeMarker (cs : List Char) : Option Nat := lastScopeMarkerAux cs 0

/-- C++ `className.find_last_of(" \t")` then `substr(lastSpace + 1)`:
the suffix after the last space or tab (the whole string when there is
none). -/
def afterLastSpaceTab (cs : List Char) : List Char :=
  (cs.reverse.takeWhile (fun c => !(c == ' ' || c == '\t'))).reverse

/-- The fixed macro list of `getMacroCompletions`. -/
def knownMacroNames : List String :=
  ["UCLASS", "USTRUCT", "UFUNCTION", "UPROPERTY", "UENUM"]

/-- One macro completion json object as built in the source. -/
def mkMacroCompletion (v : EngineVersion) (m : String) : CompletionItem :=
  { label := m
  , insertText := getMacroTemplate m v
  , detail := "Unreal Engine " ++ v.verString ++ " Macro"
  , kind := 15
  , sortText := "0_" ++ m }

/-- C++ `macro.find(prefix) == 0`: the candidate starts with the prefix. -/
def startsAtZero (pre s : String) : Bool := pre.data.isPrefixOf s.data

/-- C++ `VersionCompatibleAutoComplete::getMacroCompletions`. -/
def getMacroCompletions (v : EngineVersion) (pre : String) : List CompletionItem :=
  (knownMacroNames.filter (fun m => pre.isEmpty || startsAtZero pre m)).map
    (mkMacroCompletion v)

/-- One member completion json object as built in the source. -/
def mkMemberCompletion (v : EngineVersion) (className m : String) : CompletionItem :=
  { label := m
  , insertText := m
  , detail := className ++ "::" ++ m ++ " (UE " ++ v.verString ++ ")"
  , kind := 2
  , sortText := "1_" ++ m }

/-- C++ `VersionCompatibleAutoComplete::getMemberCompletions`: take the text
before the last `::`, strip up to the last space/tab to get the class
name, read that class's methods from the static model and from the
scanner snapshot, union them through an `unordered_set`, and emit one
item per surviving method matching the prefix.  The set is modelled as
`List.dedup` of the concatenation: the same element set with no
duplicates (the hash set's iteration order is unspecified in C++, so
only multiplicity-free membership is meaningful). -/
def getMemberCompletions (v : EngineVersion) (scan : ScanState)
    (context pre : String) : List CompletionItem :=
  match lastScopeMarker context.data with
  | none => []
  | some pos =>
    let className := String.mk (afterLastSpaceTab (context.data.take pos))
    let apiMethods := getClassMethods className v
    let scannedMethods := scannerGetClassMethods scan className
    let allMethods := (apiMethods ++ scannedMethods).dedup
    (allMethods.filter (fun m => pre.isEmpty || startsAtZero pre m)).map
      (mkMemberCompletion v className)

/-- C++ `VersionCompatibleAutoComplete::getCompletions`: macro candidates
always; member candidates appended only when the context contains a
scope-resolution marker. -/
def acGetCompletions (v : EngineVersion) (scan : ScanState)
    (pre context : String) : List CompletionItem :=
  let macroItems := getMacroCompletions v pre
  if containsScopeMarker context.data then
    macroItems ++ getMemberCompletions v scan context pre
  else macroItems

/-! ### UnrealEngineAnalyzer and the protocol completion path -/

/-- C++ `UnrealEngineAnalyzer::getCurrentWord`: the body ignores its
arguments and returns the empty string. -/
def getCurrentWord (_text : String) (_line _character : Int) : String := ""

/-- C++ `UnrealEngineAnalyzer::detectUnrealContext`: the body ignores its
arguments and returns the empty string. -/
def detectUnrealContext (_text : String) (_line _character : Int) : String := ""

/-- C++ `UnrealEngineAnalyzer::getCompletions`: resolve the current word and
context from the stored text, delegate to the version-compatible
autocompleter, and copy the five json fields into `CompletionItem`s
(the identity in this embedding). -/
def analyzerGetCompletions (v : EngineVersion) (scan : ScanState)
    (text : String) (line character : Int) : List CompletionItem :=
  let currentWord := getCurrentWord text line character
  let context := detectUnrealContext text line character
  acGetCompletions v scan currentWord context

/-- C++ `LSPServer::handleTextDocumentCompletion`: look the uri up in the
open-files map; when present, answer with the analyzer's completions
(`some items` stands for the response sent), otherwise send nothing
(`none`). -/
def handleTextDocumentCompletion (v : EngineVersion) (scan : ScanState)
    (openFiles : List (String × String)) (uri : String)
    (line character : Int) : Option (List CompletionItem) :=
  match alistLookup openFiles uri with
  | some text => some (analyzerGetCompletions v scan text line character)
  | none => none

/-! ### LSPServer::run — the transport read loop

The byte stream is a `List Char`.  `std::getline` yields the characters
up to the next newline (consuming it) and fails only at end of input.
`std::stoi` skips leading whitespace, accepts an optional sign, and
**throws `std::invalid_argument`** when no digits follow; `run` has no
handler, so the exception unwinds out of the loop (it is caught only in
`main`, which exits) — modelled as `Except.error`.  A negative parsed
length makes `std::string::resize` throw `std::length_error`, also
uncaught in `run`.  `handleMessage` wraps its dispatch in try/catch, so
body handling never throws; the model collects the framed bodies the
loop hands to it.  A short final read pads the body with the `'\0'`
fill of `resize` and leaves nothing in the stream, after which `getline`
fails and the loop ends — exactly what the failbit produces. -/

/-- C++ `std::getline` on the modelled stream. -/
def streamGetline (cs : List Char) : Option (List Char × List Char) :=
  match cs with
  | [] => none
  | _ => some (cs.takeWhile (fun c => !(c == '\n')),
               (cs.dropWhile (fun c => !(c == '\n'))).drop 1)

/-- C++ `std::stoi`: skip C-locale whitespace, read an optional sign and a
non-empty digit run; otherwise throw `std::invalid_argument`. -/
def cppStoi (s : List Char) : Except Unit Int :=
  let s1 := s.dropWhile isWsChar
  match s1 with
  | '-' :: r =>
    let (ds, _) := r.span isDigitChar
    if ds.isEmpty then .error () else .ok (-(digitsToNat ds : Int))
  | '+' :: r =>
    let (ds, _) := r.span isDigitChar
    if ds.isEmpty then .error () else .ok ((digitsToNat ds : Int))
  | r =>
    let (ds, _) := r.span isDigitChar
    if ds.isEmpty then .error () else .ok ((digitsToNat ds : Int))

/-- C++ `line.find("Content-Length:") == 0`. -/
def isContentLengthLine (line : List Char) : Bool :=
  "Content-Length:".data.isPrefixOf line

/-- The body of `LSPServer::run` as a fuel-indexed loop over the
remaining stream.  `.ok bodies` is normal termination at end of stream
with the message bodies handed to `handleMessage`; `.error ()` is an
exception escaping the loop. -/
def lspRunAux : Nat → List Char → Except Unit (List String)
  | 0, _ => .ok []
  | fuel + 1, cs =>
    match streamGetline cs with
    | none => .ok []
    | some (line, rest) =>
      if isContentLengthLine line then
        match cppStoi (line.drop 16) with
        | .error e => .error e
        | .ok n =>
          if n < 0 then .error ()
          else
            match streamGetline rest with
            | none =>
              -- separator `getline` failed at EOF: `cin.read` is a
              -- no-op on the failed stream, `handleMessage` sees the
              -- `resize` fill, then the loop's own `getline` fails.
              .ok [String.mk (List.replicate n.toNat (Char.ofNat 0))]
            | some (_, rest2) =>
              let body := rest2.take n.toNat ++
                List.replicate (n.toNat - rest2.length) (Char.ofNat 0)
              match lspRunAux fuel (rest2.drop n.toNat) with
              | .error e => .error e
              | .ok msgs => .ok (String.mk body :: msgs)
      else lspRunAux fuel rest

/-- C++ `LSPServer::run` on a complete input stream.  Each loop iteration
consumes at least one character, so `length + 1` fuel always reaches end
of stream. -/
def lspRun (input : String) : Except Unit (List String) :=
  lspRunAux (input.data.length + 1) input.data

/-! ### Claim theorems -/

/-- C1: for every run of `UnrealEngineDetector::findAllEngineVersions`
(i.e. for every list of versions the filesystem walk can gather), the
returned sequence is sorted descending on `(major, minor, patch)` —
`versions[i] >= versions[i+1]` (the source's `operator>=`) for every
adjacent pair — and no two entries of the result are `operator==`-equal
on `(major, minor, patch)`. -/
theorem findAllEngineVersions_sorted_and_deduped (discovered : List EngineVersion) :
    List.Chain' (fun a b => evGe a b = true) (findAllEngineVersionsPost discovered) ∧
    List.Pairwise (fun a b => evEq a b = false) (findAllEngineVersionsPost discovered) := by
  have hs := List.sorted_insertionSort sortedDesc discovered
  have hc := uniqueAdj_chain' _ hs
  constructor
  · refine hc.imp (fun a b hab => ?_)
    unfold evGe
    rw [hab.1]
    rfl
  · have hp : List.Pairwise strictDesc (findAllEngineVersionsPost discovered) :=
      List.chain'_iff_pairwise.mp hc
    exact hp.imp (fun hab => hab.2)

/-- A discovered 5.1 installation, used to refute C2 concretely. -/
def installed51 : EngineVersion :=
  { major := 5, minor := 1, patch := 0, fullVersion := "5.1.0"
  , installPath := "/Users/Shared/Epic Games/UE_5.1" }

/-- C2 counterexample: with one discovered installation (5.1) and a
descriptor whose `EngineAssociation` string `"Custom"` contains no
`<major>.<minor>` pattern, `detectProjectEngineVersion` returns the
fixed default `{5, 3, 0, "5.3.0", ""}` — not the newest discovered
installation, which the claim requires (and which the absent-descriptor
path does return). -/
theorem detectProject_noPattern_counterexample :
    detectProjectEngineVersion [installed51] (some "Custom") = defaultEngineVersion ∧
    defaultEngineVersion ≠ installed51 ∧
    detectProjectEngineVersion [installed51] none = installed51 := by
  decide

/-- C2 amended: when the association field is present but its string
contains no `<major>.<minor>[.<patch>]` pattern,
`detectProjectEngineVersion` returns the fixed default version with
empty install path directly (`parseEngineAssociation`'s no-match
branch), without consulting the discovered installations; the
newest-discovered-installation fallback applies only when the descriptor
or the association field is absent. -/
theorem detectProject_noPattern_returns_default (discovered : List EngineVersion)
    (s : String) (h : searchVersion s = none) :
    detectProjectEngineVersion discovered (some s) = defaultEngineVersion := by
  simp only [detectProjectEngineVersion, parseEngineAssociation, h]

theorem detectProject_noPattern_returns_default_witness :
    searchVersion "Custom" = none ∧
    detectProjectEngineVersion [installed51] (some "Custom") = defaultEngineVersion :=
  ⟨by decide, detectProject_noPattern_returns_default [installed51] "Custom" (by decide)⟩

/-- A version value with the given major/minor and zero patch. -/
def uev (ma mi : Int) : EngineVersion :=
  { major := ma, minor := mi, patch := 0, fullVersion := "", installPath := "" }

/-- The populated major-5 buckets in cascade order. -/
def gen5Buckets : List APIBucket :=
  [bucket50, bucket51, bucket52, bucket53, bucket54, bucket55]

/-- The `AActor` method list recorded in a bucket. -/
def bucketAActorMethods (b : APIBucket) : List String :=
  (alistLookup b.classes "AActor").getD []

/-- C3: `getClassMethods("AActor", 5.1)` is a superset of
`getClassMethods("AActor", 5.0)`, and more generally every `AActor`
symbol recorded in a major-5 bucket is present in every newer populated
major-5 bucket (the major-4 generation has a single bucket, `"4.27"`,
so its monotonicity is vacuous). -/
theorem getClassMethods_AActor_cascade_monotone :
    ((getClassMethods "AActor" (uev 5 0)).all
      (fun m => (getClassMethods "AActor" (uev 5 1)).contains m) = true) ∧
    ((List.range 6).all (fun i => (List.range 6).all (fun j =>
      !(decide (i ≤ j)) ||
        (bucketAActorMethods (gen5Buckets.getD i bucket50)).all
          (fun m => (bucketAActorMethods (gen5Buckets.getD j bucket50)).contains m)))
      = true) := by
  decide

/-- C4 counterexample: for major 6 (neither 4 nor 5) `getVersionKey`
returns the literal default `"5.3"`, not the newest populated bucket
`"5.5"` the claim requires. -/
theorem getVersionKey_unknownMajor_counterexample :
    getVersionKey (uev 6 0) = "5.3" ∧ getVersionKey (uev 6 0) ≠ "5.5" := by
  decide

/-- C4 amended: for every version whose major is neither 4 nor 5,
`getVersionKey` selects the fixed fallback bucket `"5.3"` (the
function's trailing default), not the newest populated bucket `"5.5"`. -/
theorem getVersionKey_unknownMajor (v : EngineVersion)
    (h4 : v.major ≠ 4) (h5 : v.major ≠ 5) : getVersionKey v = "5.3" := by
  unfold getVersionKey EngineVersion.isUE4
  simp [h4, h5]

theorem getVersionKey_unknownMajor_witness :
    (uev 6 0).major ≠ 4 ∧ (uev 6 0).major ≠ 5 ∧ getVersionKey (uev 6 0) = "5.3" :=
  ⟨by decide, by decide, getVersionKey_unknownMajor (uev 6 0) (by decide) (by decide)⟩

/-- C5: for every engine version, a completion request with prefix
`"UCL"` and a context containing no `"::"` yields exactly one candidate:
the `UCLASS` macro item, whose `insertText` is the version-resolved
template `getMacroTemplate "UCLASS" v` (by definition of
`mkMacroCompletion`), and no member candidates. -/
theorem acCompletions_UCL_no_scope (v : EngineVersion) (scan : ScanState)
    (context : String) (h : containsScopeMarker context.data = false) :
    acGetCompletions v scan "UCL" context = [mkMacroCompletion v "UCLASS"] := by
  unfold acGetCompletions
  rw [h]
  rw [if_neg (by simp)]
  unfold getMacroCompletions
  have hf : knownMacroNames.filter
      (fun m => ("UCL" : String).isEmpty || startsAtZero "UCL" m) = ["UCLASS"] := by
    decide
  rw [hf]
  rfl

theorem acCompletions_UCL_no_scope_witness :
    containsScopeMarker ("" : String).data = false ∧
    acGetCompletions defaultEngineVersion [] "UCL" "" =
      [mkMacroCompletion defaultEngineVersion "UCLASS"] :=
  ⟨by decide, acCompletions_UCL_no_scope defaultEngineVersion [] "" (by decide)⟩

/-- C6: member completion labels are always free of duplicates — the
`unordered_set` union of the static model's list and the scanner's
snapshot admits each method name at most once — and in the concrete
scenario (context `"AActor::"`, empty prefix, scanner snapshot holding
`CustomTick` plus `Tick`, the latter also in the static model) both
`CustomTick` and `Tick` are emitted exactly once. -/
theorem memberCompletions_label_nodup :
    (∀ (v : EngineVersion) (scan : ScanState) (context pre : String),
      ((getMemberCompletions v scan context pre).map (fun c => c.label)).Nodup) ∧
    (((getMemberCompletions (uev 5 3) [("AActor", ["CustomTick", "Tick"])] "AActor::" "").map
        (fun c => c.label)).count "CustomTick" = 1 ∧
      ((getMemberCompletions (uev 5 3) [("AActor", ["CustomTick", "Tick"])] "AActor::" "").map
        (fun c => c.label)).count "Tick" = 1 ∧
      "CustomTick" ∈ (getMemberCompletions (uev 5 3) [("AActor", ["CustomTick", "Tick"])]
        "AActor::" "").map (fun c => c.label)) := by
  constructor
  · intro v scan context pre
    unfold getMemberCompletions
    cases hm : lastScopeMarker context.data with
    | none => simp
    | some pos =>
      simp only [List.map_map]
      have hcomp : ((fun c => c.label) ∘
          mkMemberCompletion v (String.mk (afterLastSpaceTab (context.data.take pos)))) =
          (fun m => m) := rfl
      rw [hcomp, List.map_id']
      exact List.Nodup.filter _ (List.nodup_dedup _)
  · refine ⟨by decide, by decide, by decide⟩

/-- Concrete header contents used to exercise `scanHeaderFile`. -/
def headerFileA : String := "class X_API AActor : public ABase \x7b\n\tvoid Foo();\n\x7d;"

/-- A second header declaring the same exported class with a different
method. -/
def headerFileB : String := "class X_API AActor : public ABase \x7b\n\tvoid Bar();\n\x7d;"

/-- C7 counterexample: the first header records `AActor ↦ ["Foo"]`;
processing the second header **replaces** that entry with `["Bar"]`, so
`"Foo"`, recorded by an earlier file, is removed — the map does not grow
monotonically. -/
theorem scanner_overwrite_counterexample :
    scannerGetClassMethods (scanHeaderFile [] headerFileA) "AActor" = ["Foo"] ∧
    scannerGetClassMethods (scanHeaderFile (scanHeaderFile [] headerFileA) headerFileB)
      "AActor" = ["Bar"] ∧
    "Foo" ∉ scannerGetClassMethods (scanHeaderFile (scanHeaderFile [] headerFileA)
      headerFileB) "AActor" := by
  decide

theorem alistLookup_map_replace (st : ScanState) (cls c : String) (ms : List String)
    (h : c ≠ cls) :
    alistLookup (st.map (fun p => if p.1 == cls then (p.1, ms) else p)) c =
      alistLookup st c := by
  unfold alistLookup
  induction st with
  | nil => rfl
  | cons p rest ih =>
    rw [List.map_cons]
    cases hp : p.1 == cls with
    | true =>
      rw [if_pos rfl]
      have hc : (p.1 == c) = false := by
        rw [beq_eq_false_iff_ne]
        intro he
        exact h (he ▸ eq_of_beq hp)
      rw [List.find?_cons_of_neg _ (by simpa using hc),
          List.find?_cons_of_neg _ (by simpa using hc)]
      exact ih
    | false =>
      rw [if_neg Bool.false_ne_true]
      cases hc : p.1 == c with
      | true =>
        rw [List.find?_cons_of_pos _ (by simpa using hc),
            List.find?_cons_of_pos _ (by simpa using hc)]
      | false =>
        rw [List.find?_cons_of_neg _ (by simpa using hc),
            List.find?_cons_of_neg _ (by simpa using hc)]
        exact ih

theorem alistLookup_scanMapAssign_other (st : ScanState) (cls c : String)
    (ms : List String) (h : c ≠ cls) :
    alistLookup (scanMapAssign st cls ms) c = alistLookup st c := by
  unfold scanMapAssign
  by_cases hmem : st.any (fun p => p.1 == cls) = true
  · rw [if_pos hmem]
    exact alistLookup_map_replace st cls c ms h
  · rw [if_neg hmem]
    unfold alistLookup
    rw [List.find?_append]
    cases hfind : st.find? (fun p => p.1 == c) with
    | some q => simp [hfind]
    | none =>
      have hne : (cls == c) = false := by
        rw [beq_eq_false_iff_ne]
        exact fun he => h he.symm
      simp [hfind, List.find?, hne]

theorem alistLookup_scanMapAssign_self (st : ScanState) (cls : String)
    (ms : List String) :
    alistLookup (scanMapAssign st cls ms) cls = some ms := by
  unfold scanMapAssign
  by_cases hmem : st.any (fun p => p.1 == cls) = true
  · rw [if_pos hmem]
    unfold alistLookup
    induction st with
    | nil => simp at hmem
    | cons p rest ih =>
      rw [List.map_cons]
      cases hp : p.1 == cls with
      | true =>
        rw [if_pos rfl]
        rw [List.find?_cons_of_pos _ (by simpa using hp)]
        rfl
      | false =>
        have hmem' : rest.any (fun q => q.1 == cls) = true := by
          rw [List.any_cons, hp] at hmem
          simpa using hmem
        rw [if_neg Bool.false_ne_true]
        rw [List.find?_cons_of_neg _ (by simpa using hp)]
        exact ih hmem'
  · rw [if_neg hmem]
    unfold alistLookup
    rw [List.find?_append]
    have hfind : st.find? (fun p => p.1 == cls) = none := by
      rw [List.find?_eq_none]
      intro x hx hbeq
      exact hmem (List.any_eq_true.mpr ⟨x, hx, hbeq⟩)
    simp [hfind, List.find?]

/-- The fold inside `scanHeaderFile`, named for reuse in the lemmas. -/
def scanFoldStep (content : String) (s : ScanState) (cls : String) : ScanState :=
  if (extractClassMethods content cls).isEmpty then s
  else scanMapAssign s cls (extractClassMethods content cls)

theorem scanHeaderFile_eq_fold (st : ScanState) (content : String) :
    scanHeaderFile st content =
      (extractClassNames content).foldl (scanFoldStep content) st := rfl

theorem foldAssign_preserves (content : String) (names : List String)
    (st : ScanState) (c : String) (h : c ∉ names) :
    alistLookup (names.foldl (scanFoldStep content) st) c = alistLookup st c := by
  induction names generalizing st with
  | nil => rfl
  | cons n rest ih =>
    have hc : c ≠ n := fun he => h (he ▸ List.mem_cons_self n rest)
    have h' : c ∉ rest := fun hm => h (List.mem_cons_of_mem _ hm)
    rw [List.foldl_cons, ih _ h']
    unfold scanFoldStep
    by_cases he : (extractClassMethods content n).isEmpty = true
    · rw [if_pos he]
    · rw [if_neg he]
      exact alistLookup_scanMapAssign_other st n c _ hc

theorem foldAssign_assigns (content : String) (names : List String)
    (st : ScanState) (c : String) (hc : c ∈ names)
    (hne : (extractClassMethods content c).isEmpty = false) :
    alistLookup (names.foldl (scanFoldStep content) st) c =
      some (extractClassMethods content c) := by
  induction names generalizing st with
  | nil => cases hc
  | cons n rest ih =>
    rw [List.foldl_cons]
    by_cases hmem : c ∈ rest
    · exact ih _ hmem
    · have hn : n = c := by
        cases hc with
        | head => rfl
        | tail _ hr => exact absurd hr hmem
      subst hn
      rw [foldAssign_preserves content rest _ n hmem]
      unfold scanFoldStep
      rw [if_neg (by rw [hne]; exact Bool.false_ne_true)]
      exact alistLookup_scanMapAssign_self st n _

/-- C7 amended: `scanHeaderFile` **assigns**, rather than unions, the
methods extracted from the current file: a class the file does not
declare keeps its earlier entry untouched, while a class the file does
declare (with a non-empty extraction) has its entry replaced wholesale
by this file's extraction — so a later header can remove names recorded
for that class by an earlier file. -/
theorem scanHeaderFile_assign_semantics (st : ScanState) (content c : String) :
    (c ∉ extractClassNames content →
      alistLookup (scanHeaderFile st content) c = alistLookup st c) ∧
    (c ∈ extractClassNames content →
      (extractClassMethods content c).isEmpty = false →
      alistLookup (scanHeaderFile st content) c =
        some (extractClassMethods content c)) := by
  constructor
  · intro h
    rw [scanHeaderFile_eq_fold]
    exact foldAssign_preserves content _ st c h
  · intro hc hne
    rw [scanHeaderFile_eq_fold]
    exact foldAssign_assigns content _ st c hc hne

theorem scanHeaderFile_assign_semantics_witness :
    ("AActor" ∈ extractClassNames headerFileA) ∧
    ((extractClassMethods headerFileA "AActor").isEmpty = false) ∧
    alistLookup (scanHeaderFile [("AActor", ["OldMethod"])] headerFileA) "AActor" =
      some (extractClassMethods headerFileA "AActor") :=
  ⟨by decide, by decide,
    (scanHeaderFile_assign_semantics [("AActor", ["OldMethod"])] headerFileA "AActor").2
      (by decide) (by decide)⟩

/-- C8: on a stream whose frame header carries a non-numeric length
field, the read loop of `LSPServer::run` does not log-and-continue: the
`std::stoi` call throws and the exception escapes the loop (modelled as
`Except.error`), aborting the transport; a well-formed frame on the same
stream shape is processed normally and the loop ends at end of stream. -/
theorem lspRun_malformed_header_aborts :
    lspRun "Content-Length: abc\r\n\r\n\x7b\x7d" = Except.error () ∧
    lspRun "Content-Length: 2\r\n\r\n\x7b\x7d" = Except.ok ["\x7b\x7d"] :=
  ⟨rfl, rfl⟩

/-- C10: on the protocol path every completion request on an open
document is answered with exactly the five macro candidates — `UCLASS`,
`USTRUCT`, `UFUNCTION`, `UPROPERTY`, `UENUM` — carrying their
version-resolved templates, and never any member candidate, because
`getCurrentWord` and `detectUnrealContext` return `""` for all inputs,
regardless of the document text or the cursor position. -/
theorem protocolCompletion_always_five_macros (v : EngineVersion) (scan : ScanState)
    (openFiles : List (String × String)) (uri text : String) (line character : Int)
    (h : alistLookup openFiles uri = some text) :
    handleTextDocumentCompletion v scan openFiles uri line character =
      some [mkMacroCompletion v "UCLASS", mkMacroCompletion v "USTRUCT",
            mkMacroCompletion v "UFUNCTION", mkMacroCompletion v "UPROPERTY",
            mkMacroCompletion v "UENUM"] := by
  unfold handleTextDocumentCompletion
  rw [h]
  rfl

theorem protocolCompletion_always_five_macros_witness :

    alistLookup [("file:///A.h", "AActor x; x.")] "file:///A.h" = some "AActor x; x." ∧
    handleTextDocumentCompletion defaultEngineVersion [] [("file:///A.h", "AActor x; x.")]
      "file:///A.h" 3 7 =
      some [mkMacroCompletion defaultEngineVersion "UCLASS",
            mkMacroCompletion defaultEngineVersion "USTRUCT",
            mkMacroCompletion defaultEngineVersion "UFUNCTION",
            mkMacroCompletion defaultEngineVersion "UPROPERTY",
            mkMacroCompletion defaultEngineVersion "UENUM"] :=
  ⟨by decide,
    protocolCompletion_always_five_macros defaultEngineVersion []
      [("file:///A.h", "AActor x; x.")] "file:///A.h" "AActor x; x." 3 7 (by decide)⟩

end UnrealLSP
